import Mathlib

/-!
Verification of the collector-number comparator of this repository.

The reference comparator is `original_card_lt` in `test_embedded_python.py`
(the same logic is replicated in `test_original_python.py`,
`debug_python_sort.py` and `trace_rust_logic.py`).  A second, divergent
implementation `compare_card_numbers` lives in `test_hybrid_compatibility.py`.

The embedding is character-exact for ASCII input: Python's per-character
`str.isdigit` is modelled by `isDig` (ASCII `'0'..'9'`), Python string `<`
by codepoint-lexicographic comparison `lexLt`, Python `int` on a decimal
digit string by `dval`, and Python's `x or ""` side normalization by
`sideOr`.  A separate model `original_card_lt_py` additionally tracks the
Unicode characters for which Python's `str.isdigit` and `int()` disagree
(e.g. superscript digits), where the Python code can raise `ValueError`;
that model returns `Option Bool` with `none` for an exception.
-/

set_option maxRecDepth 8192

namespace CardOrder

/-- ASCII decimal digit test: models Python's per-character `str.isdigit`
for the ASCII range (codepoints 48–57). -/
def isDig (c : Char) : Bool := decide (48 ≤ c.toNat) && decide (c.toNat ≤ 57)

/-- Codepoint-lexicographic strict comparison of char lists: models Python
string `<`. -/
def lexLt : List Char → List Char → Bool
  | [], [] => false
  | [], _ :: _ => true
  | _ :: _, [] => false
  | a :: as, b :: bs =>
    if a.toNat < b.toNat then true
    else if b.toNat < a.toNat then false
    else lexLt as bs

/-- Python `<` on strings. -/
def pyStrLt (a b : String) : Bool := lexLt a.data b.data

/-- Value of a decimal digit string: models Python `int()` applied to a
(nonempty) string of ASCII decimal digits. -/
def dval (l : List Char) : Nat := l.foldl (fun a c => 10 * a + (c.toNat - 48)) 0

/-- `int(s)` for a digit string `s`. -/
def strToNat (s : String) : Nat := dval s.data

/-- `"".join(x for x in number if x.isdigit()) or "100000"`:
the digit run of a collector number, with the sentinel `"100000"`
substituted when the number holds no digit character. -/
def cleanNumber (number : String) : String :=
  if number.data.filter isDig = [] then "100000" else ⟨number.data.filter isDig⟩

/-- Python `side or ""`: a missing (`None`) side normalizes to `""`. -/
def sideOr (s : Option String) : String := s.getD ""

/-- Lines 6–49 of `original_card_lt` in `test_embedded_python.py` (after the
equal-number early return; sides already normalized). -/
def card_lt_body (sn ss onn os : String) : Bool :=
  if sn = cleanNumber sn ∧ onn = cleanNumber onn then
    -- both numbers are pure digits
    if strToNat (cleanNumber sn) = strToNat (cleanNumber onn) then
      if (cleanNumber sn).length ≠ (cleanNumber onn).length then
        decide ((cleanNumber sn).length < (cleanNumber onn).length)
      else pyStrLt ss os
    else decide (strToNat (cleanNumber sn) < strToNat (cleanNumber onn))
  else if sn = cleanNumber sn then
    if strToNat (cleanNumber sn) = strToNat (cleanNumber onn) then true
    else decide (strToNat (cleanNumber sn) < strToNat (cleanNumber onn))
  else if onn = cleanNumber onn then
    if strToNat (cleanNumber sn) = strToNat (cleanNumber onn) then false
    else decide (strToNat (cleanNumber sn) < strToNat (cleanNumber onn))
  else
    -- neither is a pure digit string
    if cleanNumber sn = cleanNumber onn then
      if ss = "" ∧ os = "" then pyStrLt sn onn else pyStrLt ss os
    else if strToNat (cleanNumber sn) = strToNat (cleanNumber onn) then
      if (cleanNumber sn).length ≠ (cleanNumber onn).length then
        decide ((cleanNumber sn).length < (cleanNumber onn).length)
      else pyStrLt ss os
    else decide (strToNat (cleanNumber sn) < strToNat (cleanNumber onn))

/-- `original_card_lt(self_number, self_side, other_number, other_side)`
from `test_embedded_python.py`, lines 1–49. -/
def original_card_lt (sn : String) (ss : Option String) (onn : String)
    (os : Option String) : Bool :=
  if sn = onn then pyStrLt (sideOr ss) (sideOr os)
  else card_lt_body sn (sideOr ss) onn (sideOr os)

/-- The three-way comparator induced by `original_card_lt`, as used by a
sort routine: `Less` when `A < B`, `Greater` when `B < A`, `Equal` otherwise. -/
def card_compare (sn : String) (ss : Option String) (onn : String)
    (os : Option String) : Ordering :=
  if original_card_lt sn ss onn os then .lt
  else if original_card_lt onn os sn ss then .gt
  else .eq

-- Sanity checks against the concrete pair checks of the spec (§8) and the
-- printouts of `test_embedded_python.py`.
example : original_card_lt "00a" none "ap0a" none = false := by decide
example : original_card_lt "ap0a" none "00a" none = true := by decide
example : original_card_lt "00" none "ap0a" none = true := by decide
example : original_card_lt "ap0a" none "1" none = true := by decide
example : card_compare "2" (some "a") "2" (some "b") = .lt := by decide
example : card_compare "10" none "2" none = .gt := by decide
example : card_compare "" none "20" none = .gt := by decide

/-! ### Order-theoretic facts about codepoint-lexicographic string comparison -/

theorem charToNat_inj {a b : Char} (h : a.toNat = b.toNat) : a = b := by
  rw [← Char.ofNat_toNat a, h, Char.ofNat_toNat]

theorem lexLt_irrefl : ∀ l, lexLt l l = false
  | [] => rfl
  | a :: as => by simp [lexLt, lexLt_irrefl as]

theorem lexLt_nil_right : ∀ l, lexLt l [] = false
  | [] => rfl
  | _ :: _ => rfl

theorem lexLt_nil_left {l : List Char} (h : l ≠ []) : lexLt [] l = true := by
  cases l with
  | nil => exact absurd rfl h
  | cons a as => rfl

theorem lexLt_asymm : ∀ {l₁ l₂ : List Char}, lexLt l₁ l₂ = true → lexLt l₂ l₁ = false
  | [], [], h => by simp [lexLt] at h
  | [], _ :: _, _ => lexLt_nil_right _
  | _ :: _, [], h => by simp [lexLt] at h
  | a :: as, b :: bs, h => by
    by_cases hab : a.toNat < b.toNat
    · have hba : ¬ b.toNat < a.toNat := by omega
      simp [lexLt, hab, hba]
    · by_cases hba : b.toNat < a.toNat
      · simp [lexLt, hab, hba] at h
      · simp only [lexLt, if_neg hab, if_neg hba] at h
        simp only [lexLt, if_neg hba, if_neg hab]
        exact lexLt_asymm h

theorem lexLt_trans : ∀ {l₁ l₂ l₃ : List Char},
    lexLt l₁ l₂ = true → lexLt l₂ l₃ = true → lexLt l₁ l₃ = true
  | _, [], _, h₁, _ => by rw [lexLt_nil_right] at h₁; exact absurd h₁ (by simp)
  | _, _, [], _, h₂ => by rw [lexLt_nil_right] at h₂; exact absurd h₂ (by simp)
  | [], _ :: _, _ :: _, _, _ => rfl
  | a :: as, b :: bs, c :: cs, h₁, h₂ => by
    simp only [lexLt] at h₁ h₂ ⊢
    by_cases hab : a.toNat < b.toNat <;> by_cases hbc : b.toNat < c.toNat
    · have hac : a.toNat < c.toNat := by omega
      simp [hac]
    · by_cases hcb : c.toNat < b.toNat
      · simp only [if_neg hbc, if_pos hcb] at h₂
        exact absurd h₂ (by simp)
      · have hac : a.toNat < c.toNat := by omega
        simp [hac]
    · by_cases hba : b.toNat < a.toNat
      · simp only [if_neg hab, if_pos hba] at h₁
        exact absurd h₁ (by simp)
      · have hac : a.toNat < c.toNat := by omega
        simp [hac]
    · by_cases hba : b.toNat < a.toNat
      · simp only [if_neg hab, if_pos hba] at h₁
        exact absurd h₁ (by simp)
      · by_cases hcb : c.toNat < b.toNat
        · simp only [if_neg hbc, if_pos hcb] at h₂
          exact absurd h₂ (by simp)
        · have hac : ¬ a.toNat < c.toNat := by omega
          have hca : ¬ c.toNat < a.toNat := by omega
          simp only [if_neg hab, if_neg hba] at h₁
          simp only [if_neg hbc, if_neg hcb] at h₂
          simp only [if_neg hac, if_neg hca]
          exact lexLt_trans h₁ h₂

theorem lexLt_connex : ∀ {l₁ l₂ : List Char},
    lexLt l₁ l₂ = false → lexLt l₂ l₁ = false → l₁ = l₂
  | [], [], _, _ => rfl
  | [], _ :: _, h₁, _ => by simp [lexLt] at h₁
  | _ :: _, [], _, h₂ => by simp [lexLt] at h₂
  | a :: as, b :: bs, h₁, h₂ => by
    by_cases hab : a.toNat < b.toNat
    · simp [lexLt, hab] at h₁
    · by_cases hba : b.toNat < a.toNat
      · simp [lexLt, hba] at h₂
      · have ha : a = b := charToNat_inj (by omega)
        simp only [lexLt, if_neg hab, if_neg hba] at h₁
        simp only [lexLt, if_neg hba, if_neg hab] at h₂
        rw [ha, lexLt_connex h₁ h₂]

theorem string_data_inj {s t : String} (h : s.data = t.data) : s = t := by
  cases s; cases t
  exact congrArg String.mk h

theorem pyStrLt_irrefl (s : String) : pyStrLt s s = false := lexLt_irrefl _

theorem pyStrLt_asymm {s t : String} (h : pyStrLt s t = true) : pyStrLt t s = false :=
  lexLt_asymm h

theorem pyStrLt_trans {s t u : String} (h₁ : pyStrLt s t = true)
    (h₂ : pyStrLt t u = true) : pyStrLt s u = true := lexLt_trans h₁ h₂

theorem pyStrLt_connex {s t : String} (h₁ : pyStrLt s t = false)
    (h₂ : pyStrLt t s = false) : s = t := string_data_inj (lexLt_connex h₁ h₂)

theorem pyStrLt_empty_right (s : String) : pyStrLt s "" = false := lexLt_nil_right _

theorem pyStrLt_empty_left {s : String} (h : s ≠ "") : pyStrLt "" s = true :=
  lexLt_nil_left (fun hd => h (string_data_inj hd))

/-- Anything strictly below a string in Python order is nonempty or below a
nonempty string; in particular nothing is below `""`. -/
theorem ne_empty_of_pyStrLt {s t : String} (h : pyStrLt s t = true) : t ≠ "" := by
  intro ht
  rw [ht, pyStrLt_empty_right] at h
  exact absurd h (by simp)

/-! ### Arithmetic of digit strings -/

theorem dval_foldl_acc (l : List Char) : ∀ a : Nat,
    l.foldl (fun a c => 10 * a + (c.toNat - 48)) a = a * 10 ^ l.length + dval l := by
  induction l with
  | nil => intro a; simp [dval]
  | cons c cs ih =>
    intro a
    have hc : dval (c :: cs) = (c.toNat - 48) * 10 ^ cs.length + dval cs := by
      show List.foldl _ (10 * 0 + (c.toNat - 48)) cs = _
      rw [ih (10 * 0 + (c.toNat - 48))]
      ring_nf
    show List.foldl _ (10 * a + (c.toNat - 48)) cs = _
    rw [ih (10 * a + (c.toNat - 48)), hc, List.length_cons, pow_succ]
    ring

theorem dval_cons (c : Char) (cs : List Char) :
    dval (c :: cs) = (c.toNat - 48) * 10 ^ cs.length + dval cs := by
  show List.foldl _ (10 * 0 + (c.toNat - 48)) cs = _
  rw [dval_foldl_acc cs (10 * 0 + (c.toNat - 48))]
  ring_nf

theorem digit_val_le (c : Char) (h : isDig c = true) : c.toNat - 48 ≤ 9 := by
  simp only [isDig, Bool.and_eq_true, decide_eq_true_eq] at h
  omega

theorem dval_lt_pow (l : List Char) (h : ∀ c ∈ l, isDig c = true) :
    dval l < 10 ^ l.length := by
  induction l with
  | nil => simp [dval]
  | cons c cs ih =>
    rw [dval_cons, List.length_cons, pow_succ]
    have hd : c.toNat - 48 ≤ 9 := digit_val_le c (h c (by simp))
    have hv : dval cs < 10 ^ cs.length := ih (fun x hx => h x (by simp [hx]))
    calc (c.toNat - 48) * 10 ^ cs.length + dval cs
        < (c.toNat - 48) * 10 ^ cs.length + 10 ^ cs.length := by omega
      _ = (c.toNat - 48 + 1) * 10 ^ cs.length := by ring
      _ ≤ 10 * 10 ^ cs.length := by
          exact Nat.mul_le_mul_right _ (by omega)
      _ = 10 ^ cs.length * 10 := by ring

/-- A decimal digit string is determined by its length and its value:
two digit strings of equal length with equal `int()` value are equal. -/
theorem digit_string_unique : ∀ (l₁ l₂ : List Char),
    (∀ c ∈ l₁, isDig c = true) → (∀ c ∈ l₂, isDig c = true) →
    l₁.length = l₂.length → dval l₁ = dval l₂ → l₁ = l₂
  | [], [], _, _, _, _ => rfl
  | [], _ :: _, _, _, hlen, _ => by simp at hlen
  | _ :: _, [], _, _, hlen, _ => by simp at hlen
  | a :: as, b :: bs, h₁, h₂, hlen, hval => by
    have hlen' : as.length = bs.length := by simpa using hlen
    rw [dval_cons, dval_cons, hlen'] at hval
    have hva : dval as < 10 ^ bs.length := hlen' ▸ dval_lt_pow as (fun c hc => h₁ c (by simp [hc]))
    have hvb : dval bs < 10 ^ bs.length := dval_lt_pow bs (fun c hc => h₂ c (by simp [hc]))
    have hda : a.toNat - 48 ≤ 9 := digit_val_le a (h₁ a (by simp))
    have hdb : b.toNat - 48 ≤ 9 := digit_val_le b (h₂ b (by simp))
    have hd : a.toNat - 48 = b.toNat - 48 := by
      rcases Nat.lt_trichotomy (a.toNat - 48) (b.toNat - 48) with hlt | heq | hgt
      · exfalso
        have : (a.toNat - 48) * 10 ^ bs.length + dval as
            < (b.toNat - 48) * 10 ^ bs.length + dval bs := by
          calc (a.toNat - 48) * 10 ^ bs.length + dval as
              < (a.toNat - 48) * 10 ^ bs.length + 10 ^ bs.length := by omega
            _ = (a.toNat - 48 + 1) * 10 ^ bs.length := by ring
            _ ≤ (b.toNat - 48) * 10 ^ bs.length := Nat.mul_le_mul_right _ (by omega)
            _ ≤ (b.toNat - 48) * 10 ^ bs.length + dval bs := Nat.le_add_right _ _
        omega
      · exact heq
      · exfalso
        have : (b.toNat - 48) * 10 ^ bs.length + dval bs
            < (a.toNat - 48) * 10 ^ bs.length + dval as := by
          calc (b.toNat - 48) * 10 ^ bs.length + dval bs
              < (b.toNat - 48) * 10 ^ bs.length + 10 ^ bs.length := by omega
            _ = (b.toNat - 48 + 1) * 10 ^ bs.length := by ring
            _ ≤ (a.toNat - 48) * 10 ^ bs.length := Nat.mul_le_mul_right _ (by omega)
            _ ≤ (a.toNat - 48) * 10 ^ bs.length + dval as := Nat.le_add_right _ _
        omega
    have hab : a = b := by
      apply charToNat_inj
      have ha48 : 48 ≤ a.toNat := by
        have := h₁ a (by simp)
        simp only [isDig, Bool.and_eq_true, decide_eq_true_eq] at this
        exact this.1
      have hb48 : 48 ≤ b.toNat := by
        have := h₂ b (by simp)
        simp only [isDig, Bool.and_eq_true, decide_eq_true_eq] at this
        exact this.1
      omega
    have htail : as = bs := by
      apply digit_string_unique as bs (fun c hc => h₁ c (by simp [hc]))
        (fun c hc => h₂ c (by simp [hc])) hlen'
      rw [hd] at hval
      omega
    rw [hab, htail]

/-! ### Digit-run facts -/

theorem clean100000_data : ("100000" : String).data = ['1', '0', '0', '0', '0', '0'] := rfl

theorem clean_all_digits (n : String) : ∀ c ∈ (cleanNumber n).data, isDig c = true := by
  intro c hc
  unfold cleanNumber at hc
  split at hc
  · rw [clean100000_data] at hc
    simp only [List.mem_cons, List.not_mem_nil, or_false] at hc
    rcases hc with h | h | h | h | h | h <;> subst h <;> decide
  · exact (List.mem_filter.mp hc).2

theorem clean_ne_nil (n : String) : (cleanNumber n).data ≠ [] := by
  unfold cleanNumber
  split
  · decide
  · next h => exact h

theorem pure_digits {n : String} (h : n = cleanNumber n) : ∀ c ∈ n.data, isDig c = true := by
  intro c hc
  exact clean_all_digits n c (by rw [← h]; exact hc)

/-- Two digit runs with equal `int()` value and equal length are equal strings. -/
theorem clean_eq_of_val_len {sn onn : String}
    (hv : strToNat (cleanNumber sn) = strToNat (cleanNumber onn))
    (hl : (cleanNumber sn).length = (cleanNumber onn).length) :
    cleanNumber sn = cleanNumber onn :=
  string_data_inj (digit_string_unique _ _ (clean_all_digits sn) (clean_all_digits onn) hl hv)

/-! ### Rank decomposition of the comparator

Every key gets a rank `(digit value, purity flag, digit-run length)`; the
comparator is: lexicographic comparison of ranks, and, inside one rank
class, side comparison (for pure-digit numbers) or side/number comparison
(otherwise).  This is the structural heart of all order-theoretic proofs. -/

def rank (n : String) : Nat × Nat × Nat :=
  (strToNat (cleanNumber n), if n = cleanNumber n then 0 else 1, (cleanNumber n).length)

def rLt : Nat × Nat × Nat → Nat × Nat × Nat → Prop
  | (v1, p1, l1), (v2, p2, l2) => v1 < v2 ∨ (v1 = v2 ∧ (p1 < p2 ∨ (p1 = p2 ∧ l1 < l2)))

/-- Tie-breaking inside a rank class of non-pure numbers: full-number
lexicographic comparison when both sides are empty, otherwise side comparison. -/
def sideOrNumLt (sn ss onn os : String) : Bool :=
  if ss = "" ∧ os = "" then pyStrLt sn onn else pyStrLt ss os

/-- Tie-breaking inside one rank class. -/
def classLt (sn ss onn os : String) : Bool :=
  if sn = cleanNumber sn then pyStrLt ss os else sideOrNumLt sn ss onn os

theorem rank_pure {n : String} (h : n = cleanNumber n) :
    rank n = (strToNat (cleanNumber n), 0, (cleanNumber n).length) := by
  unfold rank; rw [if_pos h]

theorem rank_impure {n : String} (h : ¬ n = cleanNumber n) :
    rank n = (strToNat (cleanNumber n), 1, (cleanNumber n).length) := by
  unfold rank; rw [if_neg h]

theorem rLt_irrefl (a : Nat × Nat × Nat) : ¬ rLt a a := by
  rcases a with ⟨v, p, l⟩
  simp only [rLt]
  omega

theorem classLt_pure {sn : String} (h : sn = cleanNumber sn) (ss onn os : String) :
    classLt sn ss onn os = pyStrLt ss os := by
  unfold classLt; rw [if_pos h]

theorem classLt_impure {sn : String} (h : ¬ sn = cleanNumber sn) (ss onn os : String) :
    classLt sn ss onn os = sideOrNumLt sn ss onn os := by
  unfold classLt; rw [if_neg h]

theorem classLt_num_refl (sn ss os : String) : classLt sn ss sn os = pyStrLt ss os := by
  unfold classLt sideOrNumLt
  split
  · rfl
  · split
    · next hcond =>
      rw [pyStrLt_irrefl sn, hcond.1, hcond.2]
      rfl
    · rfl

/-- Normalized-side form of `original_card_lt`. -/
def card_lt_norm (sn ss onn os : String) : Bool :=
  if sn = onn then pyStrLt ss os else card_lt_body sn ss onn os

theorem original_card_lt_eq_norm (sn : String) (ss : Option String) (onn : String)
    (os : Option String) :
    original_card_lt sn ss onn os = card_lt_norm sn (sideOr ss) onn (sideOr os) := rfl

/-- Master decomposition: the comparator is lexicographic comparison of ranks,
with `classLt` breaking ties inside one rank class. -/
theorem card_lt_norm_iff (sn ss onn os : String) :
    card_lt_norm sn ss onn os = true ↔
      (rLt (rank sn) (rank onn) ∨ (rank sn = rank onn ∧ classLt sn ss onn os = true)) := by
  by_cases hnum : sn = onn
  · subst hnum
    rw [card_lt_norm, if_pos rfl, classLt_num_refl]
    have h1 : ¬ rLt (rank sn) (rank sn) := rLt_irrefl _
    simp [h1]
  · rw [card_lt_norm, if_neg hnum]
    unfold card_lt_body
    by_cases hp1 : sn = cleanNumber sn <;> by_cases hp2 : onn = cleanNumber onn
    · -- both pure digit strings
      rw [if_pos ⟨hp1, hp2⟩, rank_pure hp1, rank_pure hp2, classLt_pure hp1]
      by_cases hv : strToNat (cleanNumber sn) = strToNat (cleanNumber onn)
      · by_cases hl : (cleanNumber sn).length = (cleanNumber onn).length
        · exact absurd (hp1.trans ((clean_eq_of_val_len hv hl).trans hp2.symm)) hnum
        · rw [if_pos hv, if_pos hl]
          simp [rLt, Prod.mk.injEq, hl, hv]
      · rw [if_neg hv]
        simp [rLt, Prod.mk.injEq, hv]
    · -- only `sn` is a pure digit string
      rw [if_neg (fun h => hp2 h.2), if_pos hp1, rank_pure hp1, rank_impure hp2,
        classLt_pure hp1]
      by_cases hv : strToNat (cleanNumber sn) = strToNat (cleanNumber onn)
      · rw [if_pos hv]
        simp [rLt, Prod.mk.injEq, hv]
      · rw [if_neg hv]
        simp [rLt, Prod.mk.injEq, hv]
    · -- only `onn` is a pure digit string
      rw [if_neg (fun h => hp1 h.1), if_neg hp1, if_pos hp2, rank_impure hp1,
        rank_pure hp2, classLt_impure hp1]
      by_cases hv : strToNat (cleanNumber sn) = strToNat (cleanNumber onn)
      · rw [if_pos hv]
        simp [rLt, Prod.mk.injEq, hv]
      · rw [if_neg hv]
        simp [rLt, Prod.mk.injEq, hv]
    · -- neither is a pure digit string
      rw [if_neg (fun h => hp1 h.1), if_neg hp1, if_neg hp2, rank_impure hp1,
        rank_impure hp2, classLt_impure hp1]
      by_cases hc : cleanNumber sn = cleanNumber onn
      · rw [if_pos hc, hc]
        have h1 : ¬ rLt (strToNat (cleanNumber onn), 1, (cleanNumber onn).length)
            (strToNat (cleanNumber onn), 1, (cleanNumber onn).length) := rLt_irrefl _
        simp only [h1, false_or, true_and, sideOrNumLt, hc]
      · by_cases hv : strToNat (cleanNumber sn) = strToNat (cleanNumber onn)
        · by_cases hl : (cleanNumber sn).length = (cleanNumber onn).length
          · exact absurd (clean_eq_of_val_len hv hl) hc
          · rw [if_neg hc, if_pos hv, if_pos hl]
            simp [rLt, Prod.mk.injEq, hl, hv]
        · rw [if_neg hc, if_neg hv]
          simp [rLt, Prod.mk.injEq, hv]

/-! ### The within-class relation is asymmetric, transitive and negatively
transitive -/

theorem sideOrNumLt_asymm {sn ss onn os : String}
    (h : sideOrNumLt sn ss onn os = true) : sideOrNumLt onn os sn ss = false := by
  unfold sideOrNumLt at h ⊢
  by_cases he : ss = "" ∧ os = ""
  · rw [if_pos he] at h
    rw [if_pos ⟨he.2, he.1⟩]
    exact pyStrLt_asymm h
  · rw [if_neg he] at h
    rw [if_neg (fun hc => he ⟨hc.2, hc.1⟩)]
    exact pyStrLt_asymm h

theorem sideOrNumLt_trans {s1 a s2 b s3 c : String}
    (h₁ : sideOrNumLt s1 a s2 b = true) (h₂ : sideOrNumLt s2 b s3 c = true) :
    sideOrNumLt s1 a s3 c = true := by
  unfold sideOrNumLt at h₁ h₂ ⊢
  by_cases ea : a = "" <;> by_cases eb : b = "" <;> by_cases ec : c = ""
  · rw [if_pos ⟨ea, eb⟩] at h₁
    rw [if_pos ⟨eb, ec⟩] at h₂
    rw [if_pos ⟨ea, ec⟩]
    exact pyStrLt_trans h₁ h₂
  · rw [if_neg (fun hc => ec hc.2), ea]
    exact pyStrLt_empty_left ec
  · rw [if_neg (fun hc => eb hc.1), ec, pyStrLt_empty_right] at h₂
    exact absurd h₂ (by simp)
  · rw [if_neg (fun hc => ec hc.2), ea]
    exact pyStrLt_empty_left ec
  · rw [if_neg (fun hc => ea hc.1), eb, pyStrLt_empty_right] at h₁
    exact absurd h₁ (by simp)
  · rw [if_neg (fun hc => ea hc.1), eb, pyStrLt_empty_right] at h₁
    exact absurd h₁ (by simp)
  · rw [if_neg (fun hc => eb hc.1), ec, pyStrLt_empty_right] at h₂
    exact absurd h₂ (by simp)
  · rw [if_neg (fun hc => ea hc.1)] at h₁
    rw [if_neg (fun hc => eb hc.1)] at h₂
    rw [if_neg (fun hc => ea hc.1)]
    exact pyStrLt_trans h₁ h₂

theorem sideOrNumLt_negtrans {s1 a s3 c : String} (s2 b : String)
    (h : sideOrNumLt s1 a s3 c = true) :
    sideOrNumLt s1 a s2 b = true ∨ sideOrNumLt s2 b s3 c = true := by
  unfold sideOrNumLt at h ⊢
  by_cases ea : a = "" <;> by_cases eb : b = "" <;> by_cases ec : c = ""
  · rw [if_pos ⟨ea, ec⟩] at h
    rw [if_pos ⟨ea, eb⟩, if_pos ⟨eb, ec⟩]
    by_cases h12 : pyStrLt s1 s2 = true
    · exact Or.inl h12
    · by_cases h21 : pyStrLt s2 s1 = true
      · exact Or.inr (pyStrLt_trans h21 h)
      · rw [pyStrLt_connex (Bool.eq_false_iff.mpr h12) (Bool.eq_false_iff.mpr h21)] at h
        exact Or.inr h
  · refine Or.inr ?_
    rw [if_neg (show ¬ (b = "" ∧ c = "") from fun hc => ec hc.2), eb]
    exact pyStrLt_empty_left ec
  · refine Or.inl ?_
    rw [if_neg (show ¬ (a = "" ∧ b = "") from fun hc => eb hc.2), ea]
    exact pyStrLt_empty_left eb
  · refine Or.inl ?_
    rw [if_neg (show ¬ (a = "" ∧ b = "") from fun hc => eb hc.2), ea]
    exact pyStrLt_empty_left eb
  · rw [if_neg (show ¬ (a = "" ∧ c = "") from fun hc => ea hc.1), ec,
      pyStrLt_empty_right] at h
    exact absurd h (by simp)
  · refine Or.inr ?_
    rw [if_neg (show ¬ (b = "" ∧ c = "") from fun hc => ec hc.2), eb]
    exact pyStrLt_empty_left ec
  · rw [if_neg (show ¬ (a = "" ∧ c = "") from fun hc => ea hc.1), ec,
      pyStrLt_empty_right] at h
    exact absurd h (by simp)
  · rw [if_neg (show ¬ (a = "" ∧ c = "") from fun hc => ea hc.1)] at h
    rw [if_neg (show ¬ (a = "" ∧ b = "") from fun hc => ea hc.1),
      if_neg (show ¬ (b = "" ∧ c = "") from fun hc => eb hc.1)]
    by_cases h12 : pyStrLt a b = true
    · exact Or.inl h12
    · by_cases h21 : pyStrLt b a = true
      · exact Or.inr (pyStrLt_trans h21 h)
      · have hab : a = b := pyStrLt_connex (Bool.eq_false_iff.mpr h12) (Bool.eq_false_iff.mpr h21)
        refine Or.inr ?_
        rw [← hab]
        exact h

theorem pyStrLt_negtrans {a c : String} (b : String) (h : pyStrLt a c = true) :
    pyStrLt a b = true ∨ pyStrLt b c = true := by
  by_cases h12 : pyStrLt a b = true
  · exact Or.inl h12
  · by_cases h21 : pyStrLt b a = true
    · exact Or.inr (pyStrLt_trans h21 h)
    · have hab : a = b := pyStrLt_connex (Bool.eq_false_iff.mpr h12) (Bool.eq_false_iff.mpr h21)
      refine Or.inr ?_
      rw [← hab]
      exact h

/-! ### Rank order facts -/

theorem rLt_asymm {x y : Nat × Nat × Nat} (h : rLt x y) : ¬ rLt y x := by
  rcases x with ⟨v1, p1, l1⟩
  rcases y with ⟨v2, p2, l2⟩
  simp only [rLt] at h ⊢
  omega

theorem rLt_trans {x y z : Nat × Nat × Nat} (h₁ : rLt x y) (h₂ : rLt y z) : rLt x z := by
  rcases x with ⟨v1, p1, l1⟩
  rcases y with ⟨v2, p2, l2⟩
  rcases z with ⟨v3, p3, l3⟩
  simp only [rLt] at h₁ h₂ ⊢
  omega

theorem rLt_connex {x y : Nat × Nat × Nat} (h₁ : ¬ rLt x y) (h₂ : ¬ rLt y x) : x = y := by
  rcases x with ⟨v1, p1, l1⟩
  rcases y with ⟨v2, p2, l2⟩
  simp only [rLt, Prod.mk.injEq] at h₁ h₂ ⊢
  omega

theorem rLt_negtrans {x z : Nat × Nat × Nat} (y : Nat × Nat × Nat) (h : rLt x z) :
    rLt x y ∨ rLt y z := by
  rcases x with ⟨v1, p1, l1⟩
  rcases y with ⟨v2, p2, l2⟩
  rcases z with ⟨v3, p3, l3⟩
  simp only [rLt] at h ⊢
  omega

theorem rank_eq_purity {sn onn : String} (h : rank sn = rank onn) :
    (sn = cleanNumber sn ↔ onn = cleanNumber onn) := by
  by_cases h1 : sn = cleanNumber sn <;> by_cases h2 : onn = cleanNumber onn
  · exact iff_of_true h1 h2
  · rw [rank_pure h1, rank_impure h2] at h
    have h01 : (0 : Nat) = 1 := congrArg (fun t : Nat × Nat × Nat => t.2.1) h
    exact absurd h01 (by decide)
  · rw [rank_impure h1, rank_pure h2] at h
    have h01 : (1 : Nat) = 0 := congrArg (fun t : Nat × Nat × Nat => t.2.1) h
    exact absurd h01 (by decide)
  · exact iff_of_false h1 h2

/-! ### Within-class tie-breaking wrappers -/

theorem classLt_asymm {sn ss onn os : String}
    (hpp : sn = cleanNumber sn ↔ onn = cleanNumber onn)
    (h : classLt sn ss onn os = true) : classLt onn os sn ss = false := by
  unfold classLt at h ⊢
  by_cases h1 : sn = cleanNumber sn
  · rw [if_pos h1] at h
    rw [if_pos (hpp.mp h1)]
    exact pyStrLt_asymm h
  · rw [if_neg h1] at h
    rw [if_neg (fun hh => h1 (hpp.mpr hh))]
    exact sideOrNumLt_asymm h

theorem classLt_trans {s1 a s2 b s3 c : String}
    (hpp12 : s1 = cleanNumber s1 ↔ s2 = cleanNumber s2)
    (h₁ : classLt s1 a s2 b = true) (h₂ : classLt s2 b s3 c = true) :
    classLt s1 a s3 c = true := by
  unfold classLt at h₁ h₂ ⊢
  by_cases h1 : s1 = cleanNumber s1
  · rw [if_pos h1] at h₁ ⊢
    rw [if_pos (hpp12.mp h1)] at h₂
    exact pyStrLt_trans h₁ h₂
  · rw [if_neg h1] at h₁ ⊢
    rw [if_neg (fun hh => h1 (hpp12.mpr hh))] at h₂
    exact sideOrNumLt_trans h₁ h₂

theorem classLt_negtrans {s1 a s3 c : String} (s2 b : String)
    (hpp12 : s1 = cleanNumber s1 ↔ s2 = cleanNumber s2)
    (h : classLt s1 a s3 c = true) :
    classLt s1 a s2 b = true ∨ classLt s2 b s3 c = true := by
  unfold classLt at h ⊢
  by_cases h1 : s1 = cleanNumber s1
  · rw [if_pos h1] at h ⊢
    rw [if_pos (hpp12.mp h1)]
    exact pyStrLt_negtrans b h
  · rw [if_neg h1] at h ⊢
    rw [if_neg (fun hh => h1 (hpp12.mpr hh))]
    exact sideOrNumLt_negtrans s2 b h

/-! ### Global order-theoretic properties of the comparator -/

theorem card_lt_norm_asymm {sn ss onn os : String}
    (h : card_lt_norm sn ss onn os = true) : card_lt_norm onn os sn ss = false := by
  rw [card_lt_norm_iff] at h
  rw [Bool.eq_false_iff]
  rw [Ne, card_lt_norm_iff]
  rcases h with hr | ⟨he, hc⟩
  · rintro (hr' | ⟨he', _⟩)
    · exact rLt_asymm hr hr'
    · exact rLt_irrefl _ (he' ▸ hr)
  · rintro (hr' | ⟨he', hc'⟩)
    · rw [he] at hr'
      exact rLt_irrefl _ hr'
    · exact Bool.eq_false_iff.mp (classLt_asymm (rank_eq_purity he) hc) hc'

theorem card_lt_norm_trans {s1 a s2 b s3 c : String}
    (h₁ : card_lt_norm s1 a s2 b = true) (h₂ : card_lt_norm s2 b s3 c = true) :
    card_lt_norm s1 a s3 c = true := by
  rw [card_lt_norm_iff] at h₁ h₂ ⊢
  rcases h₁ with hr1 | ⟨he1, hc1⟩ <;> rcases h₂ with hr2 | ⟨he2, hc2⟩
  · exact Or.inl (rLt_trans hr1 hr2)
  · exact Or.inl (he2 ▸ hr1)
  · exact Or.inl (he1 ▸ hr2)
  · exact Or.inr ⟨he1.trans he2, classLt_trans (rank_eq_purity he1) hc1 hc2⟩

theorem card_lt_norm_negtrans {s1 a s3 c : String} (s2 b : String)
    (h : card_lt_norm s1 a s3 c = true) :
    card_lt_norm s1 a s2 b = true ∨ card_lt_norm s2 b s3 c = true := by
  rw [card_lt_norm_iff] at h
  rw [card_lt_norm_iff, card_lt_norm_iff]
  rcases h with hr | ⟨he, hc⟩
  · rcases rLt_negtrans (rank s2) hr with h' | h'
    · exact Or.inl (Or.inl h')
    · exact Or.inr (Or.inl h')
  · by_cases hr1 : rLt (rank s1) (rank s2)
    · exact Or.inl (Or.inl hr1)
    · by_cases hr2 : rLt (rank s2) (rank s1)
      · refine Or.inr (Or.inl ?_)
        rw [← he]
        exact hr2
      · have he12 : rank s1 = rank s2 := rLt_connex hr1 hr2
        rcases classLt_negtrans s2 b (rank_eq_purity he12) hc with h' | h'
        · exact Or.inl (Or.inr ⟨he12, h'⟩)
        · exact Or.inr (Or.inr ⟨he12.symm.trans he, h'⟩)

theorem original_card_lt_asymm {sn onn : String} {ss os : Option String}
    (h : original_card_lt sn ss onn os = true) :
    original_card_lt onn os sn ss = false :=
  card_lt_norm_asymm h

theorem original_card_lt_trans {s1 s2 s3 : String} {a b c : Option String}
    (h₁ : original_card_lt s1 a s2 b = true)
    (h₂ : original_card_lt s2 b s3 c = true) :
    original_card_lt s1 a s3 c = true :=
  card_lt_norm_trans h₁ h₂

theorem original_card_lt_negtrans {s1 s3 : String} {a c : Option String}
    (s2 : String) (b : Option String)
    (h : original_card_lt s1 a s3 c = true) :
    original_card_lt s1 a s2 b = true ∨ original_card_lt s2 b s3 c = true :=
  card_lt_norm_negtrans s2 (sideOr b) h

/-! ### Helper characterizations of `card_compare` -/

/-- Three-way Python string comparison. -/
def pyStrCompare (a b : String) : Ordering :=
  if pyStrLt a b then .lt else if pyStrLt b a then .gt else .eq

theorem original_card_lt_self_num (n : String) (ss os : Option String) :
    original_card_lt n ss n os = pyStrLt (sideOr ss) (sideOr os) := by
  unfold original_card_lt
  rw [if_pos rfl]

theorem card_compare_eq_lt {sn onn : String} {ss os : Option String} :
    card_compare sn ss onn os = Ordering.lt ↔ original_card_lt sn ss onn os = true := by
  unfold card_compare
  by_cases h : original_card_lt sn ss onn os = true
  · rw [if_pos h]
    simp [h]
  · rw [if_neg h]
    by_cases h2 : original_card_lt onn os sn ss = true
    · rw [if_pos h2]
      simp [h]
    · rw [if_neg h2]
      simp [h]

theorem card_compare_of_lt {sn onn : String} {ss os : Option String}
    (h : original_card_lt sn ss onn os = true) :
    card_compare sn ss onn os = Ordering.lt := card_compare_eq_lt.mpr h

theorem card_compare_of_gt {sn onn : String} {ss os : Option String}
    (h : original_card_lt onn os sn ss = true) :
    card_compare sn ss onn os = Ordering.gt := by
  unfold card_compare
  rw [if_neg (Bool.eq_false_iff.mp (original_card_lt_asymm h)), if_pos h]

theorem card_compare_of_incomp {sn onn : String} {ss os : Option String}
    (h₁ : original_card_lt sn ss onn os = false)
    (h₂ : original_card_lt onn os sn ss = false) :
    card_compare sn ss onn os = Ordering.eq := by
  unfold card_compare
  rw [if_neg (Bool.eq_false_iff.mp h₁), if_neg (Bool.eq_false_iff.mp h₂)]

/-! ### Claim C10: invariance under side normalization -/

/-- C10: the comparator is invariant under side normalization at the public
interface: for every number `n`, the keys `(n, None)` and `(n, "")` compare
`Equal` in both orientations, and replacing a `None` side with the empty
string in either argument of any comparison never changes the result. -/
theorem claim10_side_none_empty_equivalent :
    (∀ n : String, card_compare n none n (some "") = Ordering.eq ∧
      card_compare n (some "") n none = Ordering.eq) ∧
    (∀ (n m : String) (os : Option String),
      original_card_lt n none m os = original_card_lt n (some "") m os ∧
      original_card_lt m os n none = original_card_lt m os n (some "") ∧
      card_compare n none m os = card_compare n (some "") m os ∧
      card_compare m os n none = card_compare m os n (some "")) := by
  constructor
  · intro n
    constructor <;>
      · apply card_compare_of_incomp <;>
          rw [original_card_lt_self_num] <;> rfl
  · exact fun n m os => ⟨rfl, rfl, rfl, rfl⟩

/-! ### Claim C5: keys with identical numbers are ordered purely by side -/

/-- C5: when the two number strings are exactly equal, the comparison result
is exactly the ordinary string comparison of the normalized sides (a missing
side normalizes to `""`, and `""` sorts strictly before any nonempty side);
no other field or rule participates. -/
theorem claim5_equal_number_side_compare :
    (∀ (n : String) (ss os : Option String),
      card_compare n ss n os = pyStrCompare (sideOr ss) (sideOr os)) ∧
    sideOr none = "" ∧
    (∀ s : String, s ≠ "" → pyStrLt "" s = true) := by
  refine ⟨?_, rfl, fun s hs => pyStrLt_empty_left hs⟩
  intro n ss os
  unfold card_compare pyStrCompare
  rw [original_card_lt_self_num, original_card_lt_self_num]

/-- Witness for C5 at concrete inputs. -/
theorem claim5_witness :
    card_compare "5" (some "a") "5" none = pyStrCompare "a" "" ∧
    pyStrLt "" "a" = true :=
  ⟨claim5_equal_number_side_compare.1 "5" (some "a") none,
   claim5_equal_number_side_compare.2.2 "a" (by decide)⟩

/-! ### Claim C1: order-theoretic contract of the comparator -/

/-- C1 as stated is false: the comparison is not trichotomous on raw keys.
The two keys `("a1", "a")` and `("b1", "a")` differ in the number field, yet
neither is `Less` than the other — the comparison yields `Equal`. -/
theorem claim1_counterexample :
    card_compare "a1" (some "a") "b1" (some "a") = Ordering.eq ∧
    ("a1" : String) ≠ "b1" ∧
    (("a1", some "a") : String × Option String) ≠ ("b1", some "a") := by
  refine ⟨?_, by decide, by decide⟩
  apply card_compare_of_incomp <;> decide

/-- C1 (amended): exactly equal keys compare `Equal`; `compare(A,B) = Less`
iff `compare(B,A) = Greater`; and `Less` is transitive over all triples.
However the comparator is only a strict weak order, not a strict total
order, on raw keys: some pairs of distinct keys also compare `Equal`. -/
theorem claim1_strict_weak_order :
    (∀ (n : String) (s : Option String), card_compare n s n s = Ordering.eq) ∧
    (∀ (n1 n2 : String) (s1 s2 : Option String),
      card_compare n1 s1 n2 s2 = Ordering.lt ↔
        card_compare n2 s2 n1 s1 = Ordering.gt) ∧
    (∀ (n1 n2 n3 : String) (s1 s2 s3 : Option String),
      card_compare n1 s1 n2 s2 = Ordering.lt →
      card_compare n2 s2 n3 s3 = Ordering.lt →
      card_compare n1 s1 n3 s3 = Ordering.lt) := by
  refine ⟨?_, ?_, ?_⟩
  · intro n s
    apply card_compare_of_incomp <;> rw [original_card_lt_self_num, pyStrLt_irrefl]
  · intro n1 n2 s1 s2
    constructor
    · intro h
      rw [card_compare_eq_lt] at h
      exact card_compare_of_gt h
    · intro h
      unfold card_compare at h
      by_cases h1 : original_card_lt n2 s2 n1 s1 = true
      · rw [if_pos h1] at h
        exact absurd h (by simp)
      · rw [if_neg h1] at h
        by_cases h2 : original_card_lt n1 s1 n2 s2 = true
        · exact card_compare_eq_lt.mpr h2
        · rw [if_neg h2] at h
          exact absurd h (by simp)
  · intro n1 n2 n3 s1 s2 s3 h₁ h₂
    rw [card_compare_eq_lt] at h₁ h₂ ⊢
    exact original_card_lt_trans h₁ h₂

/-- Witness for C1 (amended) at concrete inputs. -/
theorem claim1_witness :
    card_compare "1" none "3" none = Ordering.lt ∧
    card_compare "3" none "1" none = Ordering.gt :=
  ⟨claim1_strict_weak_order.2.2 "1" "2" "3" none none none (by decide) (by decide),
   (claim1_strict_weak_order.2.1 "1" "3" none none).mp (by decide)⟩

/-! ### Claim C6: equal digit value, different digit-run lengths -/

/-- C6: for keys with distinct number strings whose digit values agree but
whose digit runs have different lengths, the key with the shorter digit run
sorts first — both when both numbers are pure-digit (so "0" precedes "00")
and when neither is. -/
theorem claim6_shorter_digit_run_first :
    ∀ (sn onn : String) (ss os : Option String),
      sn ≠ onn →
      strToNat (cleanNumber sn) = strToNat (cleanNumber onn) →
      (cleanNumber sn).length ≠ (cleanNumber onn).length →
      ((sn = cleanNumber sn ∧ onn = cleanNumber onn) ∨
        (¬ sn = cleanNumber sn ∧ ¬ onn = cleanNumber onn)) →
      card_compare sn ss onn os =
        (if (cleanNumber sn).length < (cleanNumber onn).length
          then Ordering.lt else Ordering.gt) := by
  intro sn onn ss os hnum hv hl hpur
  have hv' : strToNat (cleanNumber onn) = strToNat (cleanNumber sn) := hv.symm
  have hl' : (cleanNumber onn).length ≠ (cleanNumber sn).length := fun h => hl h.symm
  have hAB : original_card_lt sn ss onn os = true ↔
      (cleanNumber sn).length < (cleanNumber onn).length := by
    rw [original_card_lt_eq_norm, card_lt_norm_iff]
    rcases hpur with ⟨h1, h2⟩ | ⟨h1, h2⟩
    · rw [rank_pure h1, rank_pure h2]
      simp [rLt, Prod.mk.injEq, hv, hl]
    · rw [rank_impure h1, rank_impure h2]
      simp [rLt, Prod.mk.injEq, hv, hl]
  have hBA : original_card_lt onn os sn ss = true ↔
      (cleanNumber onn).length < (cleanNumber sn).length := by
    rw [original_card_lt_eq_norm, card_lt_norm_iff]
    rcases hpur with ⟨h1, h2⟩ | ⟨h1, h2⟩
    · rw [rank_pure h2, rank_pure h1]
      simp [rLt, Prod.mk.injEq, hv', hl']
    · rw [rank_impure h2, rank_impure h1]
      simp [rLt, Prod.mk.injEq, hv', hl']
  by_cases hlen : (cleanNumber sn).length < (cleanNumber onn).length
  · rw [if_pos hlen]
    exact card_compare_of_lt (hAB.mpr hlen)
  · rw [if_neg hlen]
    exact card_compare_of_gt (hBA.mpr (by omega))

/-- Witness for C6: "0" sorts before "00". -/
theorem claim6_witness : card_compare "0" none "00" none = Ordering.lt := by
  have h := claim6_shorter_digit_run_first "0" "00" none none (by decide) (by decide)
    (by decide) (Or.inl ⟨by decide, by decide⟩)
  rw [h]
  decide

/-! ### Claim C7: a pure-digit key against a mixed key -/

/-- C7: for keys with distinct number strings where exactly one number is a
pure digit string: with equal digit values the pure-digit key sorts first
unconditionally (`Less` when it is the left argument, `Greater` when it is
the right one); with different digit values the result is decided by the
digit values. -/
theorem claim7_pure_digit_beats_mixed :
    ∀ (sn onn : String) (ss os : Option String),
      sn = cleanNumber sn → ¬ onn = cleanNumber onn →
      ((strToNat (cleanNumber sn) = strToNat (cleanNumber onn) →
          card_compare sn ss onn os = Ordering.lt ∧
          card_compare onn os sn ss = Ordering.gt) ∧
        (strToNat (cleanNumber sn) ≠ strToNat (cleanNumber onn) →
          card_compare sn ss onn os =
            (if strToNat (cleanNumber sn) < strToNat (cleanNumber onn)
              then Ordering.lt else Ordering.gt))) := by
  intro sn onn ss os h1 h2
  have h01 : (0 : Nat) < 1 := by decide
  have h01' : ¬ (0 : Nat) = 1 := by decide
  have h10 : ¬ (1 : Nat) < 0 := by decide
  have h10' : ¬ (1 : Nat) = 0 := by decide
  have hAB : original_card_lt sn ss onn os = true ↔
      (strToNat (cleanNumber sn) < strToNat (cleanNumber onn) ∨
        strToNat (cleanNumber sn) = strToNat (cleanNumber onn)) := by
    rw [original_card_lt_eq_norm, card_lt_norm_iff, rank_pure h1, rank_impure h2]
    simp [rLt, Prod.mk.injEq, h01, h01']
  have hBA : original_card_lt onn os sn ss = true ↔
      strToNat (cleanNumber onn) < strToNat (cleanNumber sn) := by
    rw [original_card_lt_eq_norm, card_lt_norm_iff, rank_impure h2, rank_pure h1]
    simp [rLt, Prod.mk.injEq, h10, h10']
  constructor
  · intro hv
    exact ⟨card_compare_of_lt (hAB.mpr (Or.inr hv)),
      card_compare_of_gt (hAB.mpr (Or.inr hv))⟩
  · intro hv
    by_cases hlt : strToNat (cleanNumber sn) < strToNat (cleanNumber onn)
    · rw [if_pos hlt]
      exact card_compare_of_lt (hAB.mpr (Or.inl hlt))
    · rw [if_neg hlt]
      exact card_compare_of_gt (hBA.mpr (by omega))

/-- Witness for C7: pure "2" sorts before mixed "2a" of equal digit value,
in both orientations. -/
theorem claim7_witness :
    card_compare "2" none "2a" none = Ordering.lt ∧
    card_compare "2a" none "2" none = Ordering.gt :=
  (claim7_pure_digit_beats_mixed "2" "2a" none none (by decide) (by decide)).1 (by decide)

/-! ### Claim C8: two mixed keys sharing one digit run -/

/-- C8: for keys with distinct number strings, neither pure-digit, with
identical digit-run strings: when both normalized sides are empty the result
is the plain lexicographic comparison of the full number strings, otherwise
it is the comparison of the normalized sides. -/
theorem claim8_same_digit_run_mixed :
    ∀ (sn onn : String) (ss os : Option String),
      sn ≠ onn → ¬ sn = cleanNumber sn → ¬ onn = cleanNumber onn →
      cleanNumber sn = cleanNumber onn →
      ((sideOr ss = "" ∧ sideOr os = "" →
          card_compare sn ss onn os = pyStrCompare sn onn) ∧
        (¬ (sideOr ss = "" ∧ sideOr os = "") →
          card_compare sn ss onn os = pyStrCompare (sideOr ss) (sideOr os))) := by
  intro sn onn ss os hnum h1 h2 hc
  have hrank : rank sn = rank onn := by
    rw [rank_impure h1, rank_impure h2, hc]
  have hAB : original_card_lt sn ss onn os = true ↔
      sideOrNumLt sn (sideOr ss) onn (sideOr os) = true := by
    rw [original_card_lt_eq_norm, card_lt_norm_iff, classLt_impure h1, hrank]
    simp [rLt_irrefl (rank onn)]
  have hBA : original_card_lt onn os sn ss = true ↔
      sideOrNumLt onn (sideOr os) sn (sideOr ss) = true := by
    rw [original_card_lt_eq_norm, card_lt_norm_iff, classLt_impure h2, hrank]
    simp [rLt_irrefl (rank onn)]
  constructor
  · rintro ⟨e1, e2⟩
    have w1 : sideOrNumLt sn (sideOr ss) onn (sideOr os) = pyStrLt sn onn := by
      unfold sideOrNumLt
      rw [if_pos ⟨e1, e2⟩]
    have w2 : sideOrNumLt onn (sideOr os) sn (sideOr ss) = pyStrLt onn sn := by
      unfold sideOrNumLt
      rw [if_pos ⟨e2, e1⟩]
    unfold pyStrCompare
    by_cases hp : pyStrLt sn onn = true
    · rw [if_pos hp]
      exact card_compare_of_lt (hAB.mpr (by rw [w1]; exact hp))
    · rw [if_neg hp]
      by_cases hq : pyStrLt onn sn = true
      · rw [if_pos hq]
        exact card_compare_of_gt (hBA.mpr (by rw [w2]; exact hq))
      · rw [if_neg hq]
        apply card_compare_of_incomp
        · exact Bool.eq_false_iff.mpr (fun hh => hp (by rw [← w1]; exact hAB.mp hh))
        · exact Bool.eq_false_iff.mpr (fun hh => hq (by rw [← w2]; exact hBA.mp hh))
  · intro hne
    have hne' : ¬ (sideOr os = "" ∧ sideOr ss = "") := fun hh => hne ⟨hh.2, hh.1⟩
    have w1 : sideOrNumLt sn (sideOr ss) onn (sideOr os) =
        pyStrLt (sideOr ss) (sideOr os) := by
      unfold sideOrNumLt
      rw [if_neg hne]
    have w2 : sideOrNumLt onn (sideOr os) sn (sideOr ss) =
        pyStrLt (sideOr os) (sideOr ss) := by
      unfold sideOrNumLt
      rw [if_neg hne']
    unfold pyStrCompare
    by_cases hp : pyStrLt (sideOr ss) (sideOr os) = true
    · rw [if_pos hp]
      exact card_compare_of_lt (hAB.mpr (by rw [w1]; exact hp))
    · rw [if_neg hp]
      by_cases hq : pyStrLt (sideOr os) (sideOr ss) = true
      · rw [if_pos hq]
        exact card_compare_of_gt (hBA.mpr (by rw [w2]; exact hq))
      · rw [if_neg hq]
        apply card_compare_of_incomp
        · exact Bool.eq_false_iff.mpr (fun hh => hp (by rw [← w1]; exact hAB.mp hh))
        · exact Bool.eq_false_iff.mpr (fun hh => hq (by rw [← w2]; exact hBA.mp hh))

/-- Witness for C8: "ap0a" and "gn0a" share digit run "0" and empty sides,
so they compare as full number strings. -/
theorem claim8_witness :
    card_compare "ap0a" none "gn0a" none = pyStrCompare "ap0a" "gn0a" :=
  (claim8_same_digit_run_mixed "ap0a" "gn0a" none none (by decide) (by decide)
    (by decide) (by decide)).1 ⟨rfl, rfl⟩

/-! ### Claim C9: digit-less numbers carry the sentinel 100000 -/

theorem rLt_of_fst_lt {x y : Nat × Nat × Nat} (h : x.1 < y.1) : rLt x y := by
  rcases x with ⟨v1, p1, l1⟩
  rcases y with ⟨v2, p2, l2⟩
  simp only [rLt]
  simp only [Prod.fst] at h
  omega

/-- C9: a number with no digit character (the empty string included) gets the
sentinel digit run "100000" and compares as if holding the integer 100000,
so it sorts after every key whose embedded digit value is below 100000. -/
theorem claim9_sentinel :
    ∀ (n m : String) (ss os : Option String),
      (∀ c ∈ n.data, isDig c = false) →
      strToNat (cleanNumber m) < 100000 →
      cleanNumber n = "100000" ∧ card_compare n ss m os = Ordering.gt := by
  intro n m ss os hnd hm
  have hfil : n.data.filter isDig = [] := by
    rw [List.filter_eq_nil_iff]
    intro a ha
    simp [hnd a ha]
  have hclean : cleanNumber n = "100000" := by
    unfold cleanNumber
    rw [if_pos hfil]
  have hval : strToNat (cleanNumber n) = 100000 := by
    rw [hclean]
    decide
  refine ⟨hclean, ?_⟩
  apply card_compare_of_gt
  rw [original_card_lt_eq_norm, card_lt_norm_iff]
  refine Or.inl (rLt_of_fst_lt ?_)
  show strToNat (cleanNumber m) < strToNat (cleanNumber n)
  omega

/-- Witness for C9: the empty number sorts after "20". -/
theorem claim9_witness :
    cleanNumber "" = "100000" ∧ card_compare "" none "20" none = Ordering.gt :=
  claim9_sentinel "" "20" none none (by decide) (by decide)

/-! ### Claim C3: the 18-key reference ordering -/

/-- The Boolean "not strictly above" relation that a sort built on the
comparator's `__lt__` realizes. -/
def card_le (a b : String × Option String) : Bool :=
  !(original_card_lt b.1 b.2 a.1 a.2)

theorem card_le_total (a b : String × Option String) :
    (card_le a b || card_le b a) = true := by
  unfold card_le
  by_cases h : original_card_lt b.1 b.2 a.1 a.2 = true
  · rw [original_card_lt_asymm h]
    simp
  · rw [Bool.eq_false_iff.mpr h]
    simp

theorem card_le_trans (a b c : String × Option String)
    (h₁ : card_le a b = true) (h₂ : card_le b c = true) : card_le a c = true := by
  unfold card_le at h₁ h₂ ⊢
  by_cases hca : original_card_lt c.1 c.2 a.1 a.2 = true
  · rcases original_card_lt_negtrans b.1 b.2 hca with h | h
    · rw [h] at h₂
      exact absurd h₂ (by simp)
    · rw [h] at h₁
      exact absurd h₁ (by simp)
  · rw [Bool.eq_false_iff.mpr hca]
    rfl

/-- The reference key set, in the order the spec requires (§8). -/
def refKeys : List (String × Option String) :=
  [("0", none), ("00", none), ("ap0a", none), ("gn0a", none), ("ml0b", none),
   ("mlp0a", none), ("00a", none), ("1", none), ("2", none), ("2", some "a"),
   ("2", some "b"), ("3", none), ("10", none), ("10", some "a"),
   ("10", some "b"), ("11", none), ("20", none), ("", none)]

/-- Two sorted lists that are permutations of one another coincide, provided
the order relation is antisymmetric on their elements. -/
theorem sorted_keys_unique : ∀ {l₁ l₂ : List (String × Option String)},
    l₁.Perm l₂ →
    l₁.Pairwise (fun a b => card_le a b = true) →
    l₂.Pairwise (fun a b => card_le a b = true) →
    (∀ a ∈ l₁, ∀ b ∈ l₁, card_le a b = true → card_le b a = true → a = b) →
    l₁ = l₂ := by
  intro l₁
  induction l₁ with
  | nil =>
    intro l₂ hp _ _ _
    exact (hp.symm.eq_nil).symm
  | cons a t ih =>
    intro l₂ hp hs₁ hs₂ hanti
    cases l₂ with
    | nil => exact absurd hp.eq_nil (by simp)
    | cons b t₂ =>
      rcases List.pairwise_cons.mp hs₁ with ⟨hall₁, hs₁'⟩
      rcases List.pairwise_cons.mp hs₂ with ⟨hall₂, hs₂'⟩
      by_cases hab : a = b
      · subst hab
        have hperm' : t.Perm t₂ := hp.cons_inv
        have ht : t = t₂ := ih hperm' hs₁' hs₂'
          (fun x hx y hy => hanti x (List.mem_cons_of_mem _ hx) y (List.mem_cons_of_mem _ hy))
        rw [ht]
      · have hbmem : b ∈ a :: t := hp.symm.subset (List.mem_cons_self b t₂)
        have hamem : a ∈ b :: t₂ := hp.subset (List.mem_cons_self a t)
        have hbt : b ∈ t := by
          rcases List.mem_cons.mp hbmem with h | h
          · exact absurd h.symm hab
          · exact h
        have hat₂ : a ∈ t₂ := by
          rcases List.mem_cons.mp hamem with h | h
          · exact absurd h hab
          · exact h
        exact absurd
          (hanti a (List.mem_cons_self a t) b (List.mem_cons_of_mem _ hbt)
            (hall₁ b hbt) (hall₂ a hat₂)) hab

theorem refKeys_sorted : refKeys.Pairwise (fun a b => card_le a b = true) := by decide

theorem refKeys_anti : ∀ a ∈ refKeys, ∀ b ∈ refKeys,
    card_le a b = true → card_le b a = true → a = b := by decide

/-- C3: sorting any permutation of the 18-key reference set with the
comparator yields exactly the listed order, and the comparator fully
resolves ties between every pair of distinct keys of the set. -/
theorem claim3_reference_sort :
    (∀ l : List (String × Option String),
      l.Perm refKeys → l.mergeSort card_le = refKeys) ∧
    (∀ a ∈ refKeys, ∀ b ∈ refKeys, a ≠ b →
      card_compare a.1 a.2 b.1 b.2 ≠ Ordering.eq) := by
  constructor
  · intro l hl
    have hsorted := List.sorted_mergeSort card_le_trans card_le_total l
    have hperm : (l.mergeSort card_le).Perm refKeys :=
      (List.mergeSort_perm l card_le).trans hl
    exact sorted_keys_unique hperm hsorted refKeys_sorted
      (fun x hx y hy => refKeys_anti x (hperm.subset hx) y (hperm.subset hy))
  · decide

/-- Witness for C3 at a concrete permutation. -/
theorem claim3_witness :
    List.mergeSort refKeys card_le = refKeys ∧
    card_compare "0" none "00" none ≠ Ordering.eq :=
  ⟨claim3_reference_sort.1 refKeys (List.Perm.refl _),
   claim3_reference_sort.2 ("0", none) (by decide) ("00", none) (by decide) (by decide)⟩

/-! ### Claim C4: the hybrid implementation `compare_card_numbers` -/

/-- `clean_number(number)` from `test_hybrid_compatibility.py`, lines 51–68:
the integer value of the LEADING digit run (not of all digit characters),
paired with the length of the WHOLE number string; `(0, 0)` for the empty
string.  The `try`/`except` around `int()` cannot fire for ASCII input since
the leading digit run is a plain decimal string. -/
def clean_number (number : String) : Nat × Nat :=
  if number = "" then (0, 0)
  else (dval (number.data.takeWhile isDig), number.length)

/-- Python `s.isdigit()` on a whole string, guarded by truthiness:
`self_number.isdigit() if self_number else False`. -/
def pyIsdigitStr (s : String) : Bool :=
  !s.data.isEmpty && s.data.all isDig

/-- `compare_card_numbers(self_number, self_side, other_number, other_side)`
from `test_hybrid_compatibility.py`, lines 33–100. -/
def compare_card_numbers (sn : String) (ss : Option String) (onn : String)
    (os : Option String) : Int :=
  -- self_side = self_side if self_side else ""
  let ss' := sideOr ss
  let os' := sideOr os
  if sn = onn then
    if pyStrLt ss' os' then -1 else if pyStrLt os' ss' then 1 else 0
  else
    let sc := (clean_number sn).1
    let slen := (clean_number sn).2
    let oc := (clean_number onn).1
    let olen := (clean_number onn).2
    if pyIsdigitStr sn ∧ pyIsdigitStr onn then
      if sc ≠ oc then (if sc < oc then -1 else 1)
      else if slen ≠ olen then (if slen < olen then -1 else 1)
      else if pyStrLt ss' os' then -1 else if pyStrLt os' ss' then 1 else 0
    else if pyIsdigitStr sn then
      if sc = oc then -1
      else if sc < oc then -1 else 1
    else if pyIsdigitStr onn then
      if sc = oc then 1
      else if sc < oc then -1 else 1
    else
      if sc = oc then
        if ss' = "" ∧ os' = "" then
          if pyStrLt sn onn then -1 else if pyStrLt onn sn then 1 else 0
        else if pyStrLt ss' os' then -1 else if pyStrLt os' ss' then 1 else 0
      else if sc < oc then -1 else 1

/-- C4 fails: on the key pair `("00a", None)` vs `("ap0a", None)` — both
members of the repository's own reference set, where "ap0a" is listed before
"00a" — `compare_card_numbers` answers `-1` (Less) while the reference logic
`original_card_lt` orders "00a" strictly after "ap0a" (Greater).  This
contradicts the hybrid file's own docstring, which promises an exact match
with the original logic. -/
theorem claim4_implementations_disagree :
    compare_card_numbers "00a" none "ap0a" none = -1 ∧
    original_card_lt "00a" none "ap0a" none = false ∧
    original_card_lt "ap0a" none "00a" none = true ∧
    card_compare "00a" none "ap0a" none = Ordering.gt ∧
    compare_card_numbers "ap0a" none "00a" none = 1 := by
  refine ⟨by decide, by decide, by decide, ?_, by decide⟩
  exact card_compare_of_gt (by decide)

/-! ### Claim C2: totality over Unicode input -/

/-- Fragment of Python's `str.isdigit` over full Unicode.  Python classifies
a character as a digit when its Unicode `Numeric_Type` is `Digit` or
`Decimal`; beyond ASCII this includes the superscript digits `'¹'` (U+00B9),
`'²'` (U+00B2) and `'³'` (U+00B3), which this fragment records explicitly. -/
def pyIsDigitU (c : Char) : Bool := isDig c || c = '¹' || c = '²' || c = '³'

/-- Python `int()` on a string: it succeeds only on (nonempty, sign-free)
strings of characters with `Numeric_Type=Decimal` — the ASCII digits in this
fragment.  Superscript digits satisfy `str.isdigit` but are rejected by
`int()`, which raises `ValueError` (modelled as `none`). -/
def pyInt? (s : String) : Option Nat :=
  if s.data ≠ [] ∧ s.data.all isDig then some (dval s.data) else none

/-- The digit run of lines 9 and 12 of `test_embedded_python.py`, under the
full-Unicode reading of `str.isdigit`. -/
def cleanNumberU (number : String) : String :=
  if number.data.filter pyIsDigitU = [] then "100000"
  else ⟨number.data.filter pyIsDigitU⟩

/-- `original_card_lt` under the full-Unicode reading: the comparator first
builds each digit run with `str.isdigit` and immediately converts it with
`int()`; `none` models the `ValueError` Python raises when a digit-classified
character is not a decimal digit. -/
def original_card_lt_py (sn : String) (ss : Option String) (onn : String)
    (os : Option String) : Option Bool :=
  if sn = onn then some (pyStrLt (sideOr ss) (sideOr os))
  else
    match pyInt? (cleanNumberU sn) with
    | none => none
    | some sv =>
      match pyInt? (cleanNumberU onn) with
      | none => none
      | some ov =>
        some (
          if sn = cleanNumberU sn ∧ onn = cleanNumberU onn then
            if sv = ov then
              if (cleanNumberU sn).length ≠ (cleanNumberU onn).length then
                decide ((cleanNumberU sn).length < (cleanNumberU onn).length)
              else pyStrLt (sideOr ss) (sideOr os)
            else decide (sv < ov)
          else if sn = cleanNumberU sn then
            if sv = ov then true else decide (sv < ov)
          else if onn = cleanNumberU onn then
            if sv = ov then false else decide (sv < ov)
          else
            if cleanNumberU sn = cleanNumberU onn then
              if sideOr ss = "" ∧ sideOr os = "" then pyStrLt sn onn
              else pyStrLt (sideOr ss) (sideOr os)
            else if sv = ov then
              if (cleanNumberU sn).length ≠ (cleanNumberU onn).length then
                decide ((cleanNumberU sn).length < (cleanNumberU onn).length)
              else pyStrLt (sideOr ss) (sideOr os)
            else decide (sv < ov))

/-- On input whose characters are classified identically by the ASCII and
the full-Unicode digit tests (in particular, all ASCII input), the
full-Unicode model succeeds and agrees with the ASCII model. -/
theorem original_card_lt_py_agrees (sn onn : String) (ss os : Option String)
    (h1 : ∀ c ∈ sn.data, pyIsDigitU c = isDig c)
    (h2 : ∀ c ∈ onn.data, pyIsDigitU c = isDig c) :
    original_card_lt_py sn ss onn os = some (original_card_lt sn ss onn os) := by
  have hcu1 : cleanNumberU sn = cleanNumber sn := by
    unfold cleanNumberU cleanNumber
    rw [List.filter_congr h1]
  have hcu2 : cleanNumberU onn = cleanNumber onn := by
    unfold cleanNumberU cleanNumber
    rw [List.filter_congr h2]
  have hint1 : pyInt? (cleanNumber sn) = some (strToNat (cleanNumber sn)) := by
    unfold pyInt?
    rw [if_pos ⟨clean_ne_nil sn, List.all_eq_true.mpr (clean_all_digits sn)⟩]
    rfl
  have hint2 : pyInt? (cleanNumber onn) = some (strToNat (cleanNumber onn)) := by
    unfold pyInt?
    rw [if_pos ⟨clean_ne_nil onn, List.all_eq_true.mpr (clean_all_digits onn)⟩]
    rfl
  unfold original_card_lt_py original_card_lt
  by_cases hnum : sn = onn
  · rw [if_pos hnum, if_pos hnum]
  · rw [if_neg hnum, if_neg hnum, hcu1, hcu2, hint1, hint2]
    rfl

/-- C2 fails on the code: for the number `"²"` (SUPERSCRIPT TWO), every
character is classified as a digit by `str.isdigit`, so the digit run is
`"²"` itself — which `int()` rejects with `ValueError`.  The comparator
therefore throws for this Unicode input instead of treating the non-ASCII
symbol as a non-digit character.  On ASCII input the model evaluates
normally. -/
theorem claim2_superscript_raises :
    original_card_lt_py "²" none "0" none = none ∧
    original_card_lt_py "0" none "²" none = none ∧
    original_card_lt_py "2" none "10" none = some true ∧
    original_card_lt_py "" none "20" none = some false := by
  refine ⟨by decide, by decide, by decide, by decide⟩

end CardOrder
